import Mathlib

/-!
Verification model of the nine-picture-grid web application.

The definitions below are a shallow embedding of the TypeScript source:
* `loadImagesFromSupabase` / `reconcileImages` model the image-loading
  effect in the page controller (listing objects and mapping them to slots);
* `handleFileChange` / `handleImageChange` model the grid's per-slot
  add/remove logic, producing an explicit trace of observable events;
* `handleDownload` together with the JSON string escaping functions models
  the export-to-file action.
-/

namespace NineGrid

/-! ## Slot-number parsing

The source extracts the slot number from an object name with the regular
expressions `slot-(\d+)-` (searched anywhere in the name, used on the
user-scoped branch) and `^slot-(\d+)-` (anchored, used on the legacy
branch).  `\d+` is greedy and the following literal `-` must match, so a
match at a position succeeds exactly when the maximal digit run after
`slot-` is nonempty and is followed by `-`. -/

/-- Decimal value of a digit string, as computed by `parseInt` on a string
of ASCII digits. -/
def natOfDigits (ds : List Char) : Nat :=
  ds.foldl (fun a c => a * 10 + (c.toNat - 48)) 0

/-- Matches the pattern `slot-(\d+)-` at the head of the character list. -/
def slotMatchAt : List Char → Option Nat
  | 's' :: 'l' :: 'o' :: 't' :: '-' :: rest =>
    let ds := rest.takeWhile Char.isDigit
    let r := rest.dropWhile Char.isDigit
    if ds ≠ [] ∧ r.head? = some '-' then some (natOfDigits ds) else none
  | _ => none

/-- Search `slot-(\d+)-` at every start position, left to right, as the
regex engine does for an unanchored pattern. -/
def findSlotAux : List Char → Option Nat
  | [] => none
  | c :: cs =>
    match slotMatchAt (c :: cs) with
    | some n => some n
    | none => findSlotAux cs

/-- Model of the unanchored regex search `slot-(\d+)-` on `name.match`:
first match anywhere in the name. -/
def findSlotNum (s : String) : Option Nat := findSlotAux s.data

/-- Model of the anchored regex `^slot-(\d+)-` on `name.match`: match at
the start of the name only. -/
def anchoredSlotNum (s : String) : Option Nat := slotMatchAt s.data

/-- Model of JavaScript `s.startsWith(pre)`: character-wise prefix test. -/
def strStartsWith (s pre : String) : Bool := pre.data.isPrefixOf s.data

/-! ## Reconcile (`loadImagesFromSupabase`, page controller)

The remote store is represented by the listing it returns (a list of
object names) and by the public-URL resolver `pub : String → String`
(`getPublicUrl` never fails in the source; it synchronously returns a URL
for a name). -/

/-- Initial image array, `Array(9).fill(null)` in the source. -/
def initialImages : List (Option String) := List.replicate 9 none

/-- The body of the `for (const file of files)` loop: one object name is
inspected and, when eligible, its public URL is written into the slot the
name encodes.  Mirrors the two branches of the source:
`user && file.name.startsWith(userPrefix)` (unanchored slot pattern) and
`!userPrefix` plus an anchored legacy-pattern match (reachable only when
no user is present). -/
def processFile (userId : Option String) (pub : String → String)
    (images : List (Option String)) (name : String) : List (Option String) :=
  match userId with
  | some uid =>
    if strStartsWith name ("user-" ++ uid) then
      match findSlotNum name with
      | some n => if 1 ≤ n ∧ n < 10 then images.set (n - 1) (some (pub name)) else images
      | none => images
    else images
  | none =>
    match anchoredSlotNum name with
    | some n => if 1 ≤ n ∧ n < 10 then images.set (n - 1) (some (pub name)) else images
    | none => images

/-- The reconciliation loop: starting from `Array(9).fill(null)`, process
every listed object in listing order. -/
def reconcileImages (userId : Option String) (pub : String → String)
    (files : List String) : List (Option String) :=
  files.foldl (processFile userId pub) initialImages

/-- The image-loading effect on the image state, with the source's guards
(part 002, lines 33-42): once auth has resolved with no user, the state is
reset to nine null slots and the bucket is never listed
(`if (!user && !isAuthLoading)` early return); while auth is still
resolving nothing changes; otherwise a user is present, and a nonempty
listing replaces the state with the freshly reconciled array
(`if (files && files.length > 0) ... setImages(newImages)`), an empty
listing leaving the previous state in place.  Consequently the loop only
ever runs with `user` present, so its legacy branch is unreachable. -/
def loadImagesFromSupabase (user : Option String) (isAuthLoading : Bool)
    (pub : String → String) (files : List String)
    (prev : List (Option String)) : List (Option String) :=
  if user = none ∧ isAuthLoading = false then List.replicate 9 none
  else if isAuthLoading = true then prev
  else if files.length > 0 then reconcileImages user pub files else prev

/-- Specification view of the loop body: the slot index (zero-based) that a
listed object name is accepted for, if any.  `none` means the object is
skipped.  Derived from `processFile`, see `processFile_eq_eligibleSlot`. -/
def eligibleSlot (userId : Option String) (name : String) : Option Nat :=
  match userId with
  | some uid =>
    if strStartsWith name ("user-" ++ uid) then
      match findSlotNum name with
      | some n => if 1 ≤ n ∧ n < 10 then some (n - 1) else none
      | none => none
    else none
  | none =>
    match anchoredSlotNum name with
    | some n => if 1 ≤ n ∧ n < 10 then some (n - 1) else none
    | none => none

/-- The slot number (one-based, as written in the name) that the relevant
regular expression parses from an object name, under the given identity. -/
def slotNumOf (userId : Option String) (name : String) : Option Nat :=
  match userId with
  | some uid => if strStartsWith name ("user-" ++ uid) then findSlotNum name else none
  | none => anchoredSlotNum name

/-! ## Grid slot mutation (`ImageCell.handleFileChange` and
`ImageGrid.handleImageChange`)

The add/remove logic is effectful: it talks to the remote store, shows
toasts, dispatches debug events and invokes the upload-progress callbacks.
We model one invocation as a pure function from its inputs — the selected
file (or `none` for removal), the current image array, the identity, the
clock, and the outcomes the remote store will report — to the ordered list
of observable events it performs. -/

/-- The fields of a selected browser `File` that the source inspects. -/
structure JSFile where
  name : String
  type : String
  size : Nat
deriving DecidableEq

/-- Outcome of the `supabase.storage.upload` call: it resolves with a
stored path, resolves with an error value, or rejects (throws). -/
inductive UploadOutcome where
  | ok (path : String)
  | err
  | exn
deriving DecidableEq

/-- Outcome of the `supabase.storage.remove` call: it resolves without
error, resolves with an error value, or rejects (throws). -/
inductive RemoveOutcome where
  | ok
  | err
  | exn
deriving DecidableEq

/-- Observable events of one grid-mutation invocation, in program order.
`toast` is a user-visible notification (its title); `debug` is an
`app-debug` bus entry (its level); `uploadCall`, `publicUrlCall` and
`removeCall` are the remote-store calls with the object name or path they
were given; `startUpload` and `finishUpload` are the busy-flag callbacks;
`setImages` and `setText` are writes to the page state. -/
inductive Event where
  | toast (title : String)
  | debug (level : String)
  | startUpload (i : Nat)
  | uploadCall (objName : String)
  | publicUrlCall (path : String)
  | removeCall (objName : String)
  | finishUpload (i : Nat)
  | setImages (imgs : List (Option String))
  | setText (s : String)
deriving DecidableEq

/-- Object name chosen for an upload: `user-(userId)-slot-(index+1)-(now)`
when an identity is present, `slot-(index+1)-(now)` otherwise. -/
def uploadFileName (userId : Option String) (index : Nat) (now : Nat) : String :=
  match userId with
  | some uid => "user-" ++ uid ++ "-slot-" ++ toString (index + 1) ++ "-" ++ toString now
  | none => "slot-" ++ toString (index + 1) ++ "-" ++ toString now

/-- JavaScript `url.split(sep)` for the one-character separator, keeping
empty pieces; always returns at least one piece. -/
def splitSlashAux : List Char → List Char → List (List Char)
  | [], acc => [acc.reverse]
  | c :: cs, acc =>
    if c = '/' then acc.reverse :: splitSlashAux cs [] else splitSlashAux cs (c :: acc)

/-- Final path segment of a URL: `urlParts[urlParts.length - 1]` after
`url.split(sep)` on the slash character. -/
def lastSegment (url : String) : String :=
  ((splitSlashAux url.data []).getLastD []).asString

/-- One invocation of the grid's `handleImageChange(index, file)`.  A
`some file` argument is an upload, `none` is a removal.  `up` and `rem`
are the outcomes the remote store produces for the upload and remove
calls; `pub` resolves a stored path to its public URL.  The result is the
ordered event trace the invocation performs. -/
def handleImageChange (index : Nat) (file : Option JSFile)
    (images : List (Option String)) (userId : Option String) (now : Nat)
    (up : UploadOutcome) (rem : RemoveOutcome) (pub : String → String) : List Event :=
  match file with
  | some _ =>
    let fileName := uploadFileName userId index now
    (match up with
     | .ok path =>
       [.startUpload index, .debug "info", .uploadCall fileName,
        .debug "info", .publicUrlCall path,
        .setImages (images.set index (some (pub path))),
        .debug "info"]
     | .err =>
       [.startUpload index, .debug "info", .uploadCall fileName,
        .debug "error", .debug "error", .toast "Upload failed"]
     | .exn =>
       [.startUpload index, .debug "info", .uploadCall fileName,
        .debug "error", .toast "Upload failed"])
      ++ [.finishUpload index]
  | none =>
    (match images.getD index none with
     | some currentImageUrl =>
       .debug "info" :: .removeCall (lastSegment currentImageUrl) ::
         (match rem with
          | .ok => [.debug "info"]
          | .err => [.debug "error"]
          | .exn => [.debug "error"])
     | none => []) ++ [.setImages (images.set index none)]

/-- One invocation of the cell's `handleFileChange` with the selected file
(`none` when the picker returned no file): client-side validation, then
delegation to `handleImageChange`. -/
def handleFileChange (index : Nat) (file : Option JSFile)
    (images : List (Option String)) (userId : Option String) (now : Nat)
    (up : UploadOutcome) (rem : RemoveOutcome) (pub : String → String) : List Event :=
  match file with
  | none => []
  | some f =>
    if ¬ strStartsWith f.type "image/" then
      [.toast "Invalid file type", .debug "error"]
    else if f.size > 5 * 1024 * 1024 then
      [.toast "File too large", .debug "error"]
    else
      .debug "info" :: handleImageChange index (some f) images userId now up rem pub

/-- The page controller's reaction to the start-upload callback:
`setUploadingSlots(prev => [...prev, index])`. -/
def handleStartImageUpload (prev : List Nat) (index : Nat) : List Nat :=
  prev ++ [index]

/-- The page controller's reaction to the finish-upload callback:
`setUploadingSlots(prev => prev.filter(slot => slot !== index))`. -/
def handleFinishImageUpload (prev : List Nat) (index : Nat) : List Nat :=
  prev.filter (fun slot => slot != index)

/-! ## Export (`handleDownload`, page controller)

The exported document `{ images, text }` is modelled as a JSON value; the
JSON string-escaping performed by `JSON.stringify` when it serializes the
`text` field is modelled by `escapeJsonString`, with `parseJsonString` as
the corresponding reader. -/

/-- JSON values, as far as the exported document needs them. -/
inductive Json where
  | null
  | str (s : String)
  | arr (xs : List Json)
  | obj (fields : List (String × Json))

/-- Serialization of one image entry: a URL serializes as a JSON string,
an empty slot as JSON `null`. -/
def imageJson : Option String → Json
  | some s => Json.str s
  | none => Json.null

/-- The export action: the JSON document `{ images, text }` built from the
current state, and the download filename it is saved under. -/
def handleDownload (images : List (Option String)) (text : String) : Json × String :=
  (Json.obj [("images", Json.arr (images.map imageJson)), ("text", Json.str text)],
   "nine-picture-grid.json")

/-- Lower-case hexadecimal digit, as produced by the JSON serializer's
unicode escapes. -/
def hexDigitChar (n : Nat) : Char :=
  if n < 10 then Char.ofNat (48 + n) else Char.ofNat (87 + n)

/-- Escape sequence `JSON.stringify` emits for one character of a string
value: quote and backslash are backslash-escaped, the named control
characters use their short escapes, the remaining control characters use
a `\u00..` escape, and everything else is emitted verbatim. -/
def escChar (c : Char) : List Char :=
  if c = '"' then ['\\', '"']
  else if c = '\\' then ['\\', '\\']
  else if c = Char.ofNat 8 then ['\\', 'b']
  else if c = Char.ofNat 9 then ['\\', 't']
  else if c = Char.ofNat 10 then ['\\', 'n']
  else if c = Char.ofNat 12 then ['\\', 'f']
  else if c = Char.ofNat 13 then ['\\', 'r']
  else if c.toNat < 32 then
    ['\\', 'u', '0', '0', hexDigitChar (c.toNat / 16), hexDigitChar (c.toNat % 16)]
  else [c]

/-- The serialized form of a JSON string value: opening quote, escaped
characters, closing quote. -/
def escapeJsonString (s : String) : String :=
  ('"' :: ((s.data.map escChar).flatten ++ ['"'])).asString

/-- Value of a hexadecimal digit character. -/
def hexVal (c : Char) : Option Nat :=
  if 48 ≤ c.toNat ∧ c.toNat ≤ 57 then some (c.toNat - 48)
  else if 97 ≤ c.toNat ∧ c.toNat ≤ 102 then some (c.toNat - 87)
  else if 65 ≤ c.toNat ∧ c.toNat ≤ 70 then some (c.toNat - 55)
  else none

/-- Reads the body of a serialized JSON string (everything between the
quotes) back into the character sequence it encodes; fails on malformed
escapes, raw quotes, raw backslashes at the end, or raw control
characters. -/
def unescapeChars : List Char → Option (List Char)
  | [] => some []
  | c :: rest =>
    if c = '\\' then
      match rest with
      | [] => none
      | e :: r =>
        if e = '"' then (unescapeChars r).map (fun l => '"' :: l)
        else if e = '\\' then (unescapeChars r).map (fun l => '\\' :: l)
        else if e = '/' then (unescapeChars r).map (fun l => '/' :: l)
        else if e = 'b' then (unescapeChars r).map (fun l => Char.ofNat 8 :: l)
        else if e = 'f' then (unescapeChars r).map (fun l => Char.ofNat 12 :: l)
        else if e = 'n' then (unescapeChars r).map (fun l => Char.ofNat 10 :: l)
        else if e = 'r' then (unescapeChars r).map (fun l => Char.ofNat 13 :: l)
        else if e = 't' then (unescapeChars r).map (fun l => Char.ofNat 9 :: l)
        else if e = 'u' then
          match r with
          | h1 :: h2 :: h3 :: h4 :: r2 =>
            match hexVal h1, hexVal h2, hexVal h3, hexVal h4 with
            | some a, some b, some c, some d =>
              let n := 4096 * a + 256 * b + 16 * c + d
              if n < 55296 then (unescapeChars r2).map (fun l => Char.ofNat n :: l)
              else none
            | _, _, _, _ => none
          | _ => none
        else none
    else if c = '"' ∨ c.toNat < 32 then none
    else (unescapeChars rest).map (fun l => c :: l)

/-- Reads a serialized JSON string value back to the string it encodes. -/
def parseJsonString (s : String) : Option String :=
  match s.data with
  | '"' :: rest =>
    if rest.getLast? = some '"' then (unescapeChars rest.dropLast).map List.asString
    else none
  | _ => none

/-! ## Helper lemmas about reconciliation -/

/-- The loop body acts on the image array exactly as `eligibleSlot`
describes: it overwrites the accepted slot, or leaves the array alone. -/
theorem processFile_eq_eligibleSlot (userId : Option String) (pub : String → String)
    (images : List (Option String)) (name : String) :
    processFile userId pub images name =
      match eligibleSlot userId name with
      | some i => images.set i (some (pub name))
      | none => images := by
  cases userId with
  | none =>
    simp only [processFile, eligibleSlot]
    cases anchoredSlotNum name with
    | none => rfl
    | some n =>
      by_cases hn : 1 ≤ n ∧ n < 10 <;> simp [hn]
  | some uid =>
    simp only [processFile, eligibleSlot]
    by_cases hp : strStartsWith name ("user-" ++ uid) = true
    · simp only [hp, if_true]
      cases findSlotNum name with
      | none => rfl
      | some n =>
        by_cases hn : 1 ≤ n ∧ n < 10 <;> simp [hn]
    · simp [hp]

/-- An accepted slot index is in range and is one less than the slot
number the relevant regex parses from the name. -/
theorem eligibleSlot_lt (userId : Option String) (name : String) (i : Nat)
    (h : eligibleSlot userId name = some i) :
    i < 9 ∧ slotNumOf userId name = some (i + 1) := by
  cases userId with
  | none =>
    simp only [eligibleSlot, slotNumOf] at h ⊢
    split at h
    next n heq =>
      split at h
      next hn =>
        injection h with h
        rw [heq, Option.some_inj]
        omega
      next hn => exact absurd h (by simp)
    next heq => exact absurd h (by simp)
  | some uid =>
    simp only [eligibleSlot, slotNumOf] at h ⊢
    by_cases hp : strStartsWith name ("user-" ++ uid) = true
    · rw [if_pos hp] at h ⊢
      split at h
      next n heq =>
        split at h
        next hn =>
          injection h with h
          rw [heq, Option.some_inj]
          omega
        next hn => exact absurd h (by simp)
      next heq => exact absurd h (by simp)
    · rw [if_neg hp] at h
      exact absurd h (by simp)

/-- Folding the loop body never changes the length of the image array. -/
theorem foldl_processFile_length (userId : Option String) (pub : String → String)
    (files : List String) (acc : List (Option String)) :
    (files.foldl (processFile userId pub) acc).length = acc.length := by
  induction files generalizing acc with
  | nil => rfl
  | cons nm fs ih =>
    rw [List.foldl_cons, ih, processFile_eq_eligibleSlot]
    cases eligibleSlot userId nm <;> simp

/-- Characterization of one slot of the reconciled array: it holds the
public URL of the last listed object accepted for that slot, and the
accumulator's entry when no listed object is accepted for it. -/
theorem foldl_processFile_getElem (userId : Option String) (pub : String → String)
    (files : List String) (acc : List (Option String)) (i : Nat)
    (hi : i < 9) (h9 : acc.length = 9) :
    (files.foldl (processFile userId pub) acc)[i]? =
      match (files.filter (fun nm => eligibleSlot userId nm == some i)).getLast? with
      | some nm => some (some (pub nm))
      | none => acc[i]? := by
  induction files generalizing acc with
  | nil => rfl
  | cons nm fs ih =>
    rw [List.foldl_cons]
    by_cases he : eligibleSlot userId nm = some i
    · have hfc : ((nm :: fs).filter (fun m => eligibleSlot userId m == some i))
          = nm :: fs.filter (fun m => eligibleSlot userId m == some i) := by
        simp [List.filter_cons, he]
      rw [hfc]
      have hset : processFile userId pub acc nm = acc.set i (some (pub nm)) := by
        rw [processFile_eq_eligibleSlot, he]
      rw [hset]
      have ih' := ih (acc.set i (some (pub nm))) (by rw [List.length_set, h9])
      rw [ih']
      cases hf : (fs.filter (fun m => eligibleSlot userId m == some i)) with
      | nil =>
        simp only [List.getLast?_nil, List.getLast?_singleton]
        exact List.getElem?_set_self (by rw [h9]; exact hi)
      | cons b l =>
        simp only [List.getLast?_cons_cons]
        cases hg : (b :: l).getLast? with
        | none => simp at hg
        | some m => rfl
    · have hfc : ((nm :: fs).filter (fun m => eligibleSlot userId m == some i))
          = fs.filter (fun m => eligibleSlot userId m == some i) := by
        simp [List.filter_cons, he]
      rw [hfc, processFile_eq_eligibleSlot]
      cases hel : eligibleSlot userId nm with
      | none => exact ih acc h9
      | some j =>
        have hji : j ≠ i := fun hji => he (hji ▸ hel)
        have ih' := ih (acc.set j (some (pub nm))) (by rw [List.length_set, h9])
        rw [ih', List.getElem?_set_ne hji]

/-- The slot accepted for the last eligible object in the listing ends up
holding that object's public URL, whatever came before it. -/
theorem reconcile_last_eligible (userId : Option String) (pub : String → String)
    (pre post : List String) (nm : String) (i : Nat)
    (he : eligibleSlot userId nm = some i)
    (hp : ∀ m ∈ post, eligibleSlot userId m ≠ some i) :
    (reconcileImages userId pub (pre ++ nm :: post))[i]? = some (some (pub nm)) := by
  have hi : i < 9 := (eligibleSlot_lt userId nm i he).1
  rw [reconcileImages, foldl_processFile_getElem userId pub _ _ i hi (by simp [initialImages])]
  have hpost : (post.filter (fun m => eligibleSlot userId m == some i)) = [] := by
    rw [List.filter_eq_nil_iff]
    intro m hm
    simpa using hp m hm
  have hcons : ((nm :: post).filter (fun m => eligibleSlot userId m == some i)) = [nm] := by
    simp [List.filter_cons, he, hpost]
  have hlast : ((pre ++ nm :: post).filter (fun m => eligibleSlot userId m == some i)).getLast?
      = some nm := by
    rw [List.filter_append, hcons, List.getLast?_concat]
  rw [hlast]

/-- Eligibility decomposed through the parsed slot number: a name is
accepted for slot `n - 1` exactly when the parse (under the applicable
branch) yields `n` with `n` in `[1, 10)`. -/
theorem eligibleSlot_eq_slotNumOf (userId : Option String) (name : String) :
    eligibleSlot userId name =
      match slotNumOf userId name with
      | some n => if 1 ≤ n ∧ n < 10 then some (n - 1) else none
      | none => none := by
  cases userId with
  | none => rfl
  | some uid =>
    simp only [eligibleSlot, slotNumOf]
    by_cases hp : strStartsWith name ("user-" ++ uid) = true
    · rw [if_pos hp, if_pos hp]
    · rw [if_neg hp, if_neg hp]

/-- The reconciled array always has exactly nine entries. -/
theorem reconcile_length (userId : Option String) (pub : String → String)
    (files : List String) : (reconcileImages userId pub files).length = 9 := by
  rw [reconcileImages, foldl_processFile_length]
  simp [initialImages]

/-- Every entry of the reconciled array is either empty or the public URL
of some listed object accepted for exactly that slot. -/
theorem reconcile_getElem_cases (userId : Option String) (pub : String → String)
    (files : List String) (i : Nat) (hi : i < 9) :
    (reconcileImages userId pub files)[i]? = some none ∨
    ∃ nm ∈ files, eligibleSlot userId nm = some i ∧
      (reconcileImages userId pub files)[i]? = some (some (pub nm)) := by
  rw [reconcileImages,
    foldl_processFile_getElem userId pub files initialImages i hi (by simp [initialImages])]
  cases hg : (files.filter (fun nm => eligibleSlot userId nm == some i)).getLast? with
  | none =>
    left
    rw [initialImages, List.getElem?_replicate, if_pos hi]
  | some nm =>
    right
    have hmem : nm ∈ files.filter (fun nm => eligibleSlot userId nm == some i) :=
      List.mem_of_mem_getLast? hg
    rw [List.mem_filter] at hmem
    exact ⟨nm, hmem.1, beq_iff_eq.mp hmem.2, rfl⟩

/-- A slot no listed object is accepted for stays empty. -/
theorem reconcile_none_of_no_match (userId : Option String) (pub : String → String)
    (files : List String) (i : Nat) (hi : i < 9)
    (h : ∀ nm ∈ files, eligibleSlot userId nm ≠ some i) :
    (reconcileImages userId pub files)[i]? = some none := by
  rw [reconcileImages,
    foldl_processFile_getElem userId pub files initialImages i hi (by simp [initialImages])]
  have hf : (files.filter (fun nm => eligibleSlot userId nm == some i)) = [] := by
    rw [List.filter_eq_nil_iff]
    intro nm hnm
    simpa using h nm hnm
  rw [hf, List.getLast?_nil, initialImages, List.getElem?_replicate, if_pos hi]

/-- An object whose parsed slot number is out of range is skipped: the
loop body leaves the array untouched. -/
theorem processFile_skips_out_of_range (userId : Option String) (pub : String → String)
    (images : List (Option String)) (name : String) (n : Nat)
    (hp : slotNumOf userId name = some n) (hn : ¬(1 ≤ n ∧ n < 10)) :
    processFile userId pub images name = images := by
  rw [processFile_eq_eligibleSlot, eligibleSlot_eq_slotNumOf, hp]
  simp [hn]

/-! ## Helper lemmas about the grid event traces -/

/-- Explicit trace of a successful upload. -/
theorem handleImageChange_ok_eq (index : Nat) (f : JSFile)
    (images : List (Option String)) (userId : Option String) (now : Nat)
    (path : String) (rem : RemoveOutcome) (pub : String → String) :
    handleImageChange index (some f) images userId now (UploadOutcome.ok path) rem pub =
      [.startUpload index, .debug "info", .uploadCall (uploadFileName userId index now),
       .debug "info", .publicUrlCall path,
       .setImages (images.set index (some (pub path))),
       .debug "info", .finishUpload index] := rfl

/-- Explicit trace of an upload whose remote call resolves with an error. -/
theorem handleImageChange_err_eq (index : Nat) (f : JSFile)
    (images : List (Option String)) (userId : Option String) (now : Nat)
    (rem : RemoveOutcome) (pub : String → String) :
    handleImageChange index (some f) images userId now UploadOutcome.err rem pub =
      [.startUpload index, .debug "info", .uploadCall (uploadFileName userId index now),
       .debug "error", .debug "error", .toast "Upload failed", .finishUpload index] := rfl

/-- Explicit trace of an upload whose remote call throws. -/
theorem handleImageChange_exn_eq (index : Nat) (f : JSFile)
    (images : List (Option String)) (userId : Option String) (now : Nat)
    (rem : RemoveOutcome) (pub : String → String) :
    handleImageChange index (some f) images userId now UploadOutcome.exn rem pub =
      [.startUpload index, .debug "info", .uploadCall (uploadFileName userId index now),
       .debug "error", .toast "Upload failed", .finishUpload index] := rfl

/-- Explicit trace of a removal when the slot holds a URL. -/
theorem handleImageChange_remove_some_eq (index : Nat)
    (images : List (Option String)) (userId : Option String) (now : Nat)
    (up : UploadOutcome) (rem : RemoveOutcome) (pub : String → String) (url : String)
    (h : images.getD index none = some url) :
    handleImageChange index none images userId now up rem pub =
      .debug "info" :: .removeCall (lastSegment url) ::
        (match rem with
         | .ok => [.debug "info"]
         | .err => [.debug "error"]
         | .exn => [.debug "error"]) ++ [.setImages (images.set index none)] := by
  simp only [handleImageChange, h]

/-- Explicit trace of a removal when the slot is already empty. -/
theorem handleImageChange_remove_none_eq (index : Nat)
    (images : List (Option String)) (userId : Option String) (now : Nat)
    (up : UploadOutcome) (rem : RemoveOutcome) (pub : String → String)
    (h : images.getD index none = none) :
    handleImageChange index none images userId now up rem pub =
      [.setImages (images.set index none)] := by
  simp only [handleImageChange, h]
  rfl

/-- Writing `none` into a slot leaves that slot reading as empty. -/
theorem set_none_getD {α : Type} (l : List (Option α)) (i : Nat) :
    (l.set i none).getD i none = none := by
  rw [List.getD_eq_getElem?_getD, List.getElem?_set]
  rw [if_pos rfl]
  split <;> rfl

/-! ## Helper lemmas about JSON string escaping -/

/-- Hex digits produced by the serializer read back to their value. -/
theorem hexVal_hexDigitChar : ∀ k, k < 16 → hexVal (hexDigitChar k) = some k := by
  decide

/-- Characters the serializer emits verbatim are not special. -/
theorem escChar_plain (c : Char) (h1 : c ≠ '"') (h2 : c ≠ '\\')
    (h3 : ¬ c.toNat < 32) : escChar c = [c] := by
  have e8 : c ≠ Char.ofNat 8 := fun h => h3 (by rw [h]; decide)
  have e9 : c ≠ Char.ofNat 9 := fun h => h3 (by rw [h]; decide)
  have e10 : c ≠ Char.ofNat 10 := fun h => h3 (by rw [h]; decide)
  have e12 : c ≠ Char.ofNat 12 := fun h => h3 (by rw [h]; decide)
  have e13 : c ≠ Char.ofNat 13 := fun h => h3 (by rw [h]; decide)
  simp [escChar, h1, h2, h3, e8, e9, e10, e12, e13]

/-- Reading back the escaped form of any character sequence recovers it
exactly. -/
theorem unescape_escape (cs : List Char) :
    unescapeChars ((cs.map escChar).flatten) = some cs := by
  induction cs with
  | nil => rfl
  | cons c cs ih =>
    rw [List.map_cons, List.flatten_cons]
    by_cases h1 : c = '"'
    · subst h1
      rw [show escChar '"' = ['\\', '"'] from by decide, List.cons_append, List.cons_append,
        List.nil_append, unescapeChars.eq_def]
      simp [ih]
    · by_cases h2 : c = '\\'
      · subst h2
        rw [show escChar '\\' = ['\\', '\\'] from by decide, List.cons_append, List.cons_append,
          List.nil_append, unescapeChars.eq_def]
        simp [ih]
      · by_cases h3 : c.toNat < 32
        · by_cases e8 : c = Char.ofNat 8
          · subst e8
            rw [show escChar (Char.ofNat 8) = ['\\', 'b'] from by decide, List.cons_append,
              List.cons_append, List.nil_append, unescapeChars.eq_def]
            simp [ih]
          · by_cases e9 : c = Char.ofNat 9
            · subst e9
              rw [show escChar (Char.ofNat 9) = ['\\', 't'] from by decide, List.cons_append,
                List.cons_append, List.nil_append, unescapeChars.eq_def]
              simp [ih]
            · by_cases e10 : c = Char.ofNat 10
              · subst e10
                rw [show escChar (Char.ofNat 10) = ['\\', 'n'] from by decide, List.cons_append,
                  List.cons_append, List.nil_append, unescapeChars.eq_def]
                simp [ih]
              · by_cases e12 : c = Char.ofNat 12
                · subst e12
                  rw [show escChar (Char.ofNat 12) = ['\\', 'f'] from by decide, List.cons_append,
                    List.cons_append, List.nil_append, unescapeChars.eq_def]
                  simp [ih]
                · by_cases e13 : c = Char.ofNat 13
                  · subst e13
                    rw [show escChar (Char.ofNat 13) = ['\\', 'r'] from by decide,
                      List.cons_append, List.cons_append, List.nil_append, unescapeChars.eq_def]
                    simp [ih]
                  · -- remaining control character: the unicode escape
                    have hesc : escChar c = ['\\', 'u', '0', '0',
                        hexDigitChar (c.toNat / 16), hexDigitChar (c.toNat % 16)] := by
                      simp [escChar, h1, h2, e8, e9, e10, e12, e13, h3]
                    have hq : hexVal (hexDigitChar (c.toNat / 16)) = some (c.toNat / 16) :=
                      hexVal_hexDigitChar _ (by omega)
                    have hr : hexVal (hexDigitChar (c.toNat % 16)) = some (c.toNat % 16) :=
                      hexVal_hexDigitChar _ (by omega)
                    have hdm : 16 * (c.toNat / 16) + c.toNat % 16 = c.toNat :=
                      Nat.div_add_mod _ 16
                    rw [hesc]
                    simp only [List.cons_append, List.nil_append]
                    rw [unescapeChars.eq_def]
                    simp [hq, hr, show hexVal '0' = some 0 from by decide, hdm, ih,
                      Char.ofNat_toNat, show c.toNat < 55296 from by omega]
        · -- ordinary character, emitted verbatim
          rw [escChar_plain c h1 h2 h3, List.cons_append, List.nil_append,
            unescapeChars.eq_def]
          simp [h1, h2, h3, ih]

/-- Reading back the full serialized JSON string value recovers the
original string byte for byte. -/
theorem parseJsonString_escapeJsonString (s : String) :
    parseJsonString (escapeJsonString s) = some s := by
  have step : parseJsonString (escapeJsonString s)
      = if (((s.data.map escChar).flatten) ++ ['"']).getLast? = some '"'
        then (unescapeChars ((((s.data.map escChar).flatten) ++ ['"']).dropLast)).map
          List.asString
        else none := rfl
  rw [step, List.getLast?_concat, if_pos rfl, List.dropLast_concat, unescape_escape]
  rfl

/-- Any state write performed by a grid-mutation invocation writes the
current array with exactly the addressed slot replaced. -/
theorem setImages_payload_is_set (index : Nat) (file : Option JSFile)
    (images : List (Option String)) (userId : Option String) (now : Nat)
    (up : UploadOutcome) (rem : RemoveOutcome) (pub : String → String)
    (imgs : List (Option String))
    (hm : Event.setImages imgs ∈ handleImageChange index file images userId now up rem pub) :
    ∃ v, imgs = images.set index v := by
  cases file with
  | some f =>
    cases up with
    | ok path =>
      rw [handleImageChange_ok_eq] at hm
      simp at hm
      exact ⟨some (pub path), hm⟩
    | err =>
      rw [handleImageChange_err_eq] at hm
      simp at hm
    | exn =>
      rw [handleImageChange_exn_eq] at hm
      simp at hm
  | none =>
    cases hc : images.getD index none with
    | some url =>
      rw [handleImageChange_remove_some_eq index images userId now up rem pub url hc] at hm
      cases rem <;> simp at hm <;> exact ⟨none, hm⟩
    | none =>
      rw [handleImageChange_remove_none_eq index images userId now up rem pub hc] at hm
      simp at hm
      exact ⟨none, hm⟩

/-! ## The claims -/

/-- C1: For every identity and any store listing, Reconcile yields an array
of exactly nine entries; every entry is either empty or the public URL of a
listed object accepted for that slot, whose parsed slot number is the
entry's index plus one; an object whose parsed slot number is out of range
is silently skipped; and a slot with no matching object stays null. -/
theorem reconcile_nine_nullable_entries (userId : Option String)
    (pub : String → String) (files : List String) :
    (reconcileImages userId pub files).length = 9 ∧
    (∀ i, i < 9 →
      (reconcileImages userId pub files)[i]? = some none ∨
      ∃ nm ∈ files, eligibleSlot userId nm = some i ∧
        slotNumOf userId nm = some (i + 1) ∧
        (reconcileImages userId pub files)[i]? = some (some (pub nm))) ∧
    (∀ i, i < 9 → (∀ nm ∈ files, eligibleSlot userId nm ≠ some i) →
      (reconcileImages userId pub files)[i]? = some none) ∧
    (∀ images nm n, slotNumOf userId nm = some n → ¬(1 ≤ n ∧ n < 10) →
      processFile userId pub images nm = images) := by
  refine ⟨reconcile_length _ _ _, ?_, ?_, ?_⟩
  · intro i hi
    rcases reconcile_getElem_cases userId pub files i hi with h | ⟨nm, hmem, he, hval⟩
    · exact Or.inl h
    · exact Or.inr ⟨nm, hmem, he, (eligibleSlot_lt _ _ _ he).2, hval⟩
  · intro i hi h
    exact reconcile_none_of_no_match userId pub files i hi h
  · intro images nm n hp hn
    exact processFile_skips_out_of_range userId pub images nm n hp hn

/-- Witness for C1 at a concrete listing: one in-range object for slot 2,
one out-of-range object; the array has nine entries and slot 0 is null. -/
theorem reconcile_nine_nullable_entries_witness :
    (reconcileImages (some "42") id ["user-42-slot-3-1000", "user-42-slot-77-2"]).length = 9 ∧
    (reconcileImages (some "42") id ["user-42-slot-3-1000", "user-42-slot-77-2"])[0]?
      = some none := by
  refine ⟨(reconcile_nine_nullable_entries (some "42") id
    ["user-42-slot-3-1000", "user-42-slot-77-2"]).1, ?_⟩
  exact (reconcile_nine_nullable_entries (some "42") id
    ["user-42-slot-3-1000", "user-42-slot-77-2"]).2.2.1 0 (by decide) (by decide)

/-- C2: The claimed legacy acceptance never happens in the program.  With
no identity (auth resolved), the loader resets every slot to null without
consulting the listing — whatever the listing holds — so a legacy-named
object such as slot-5-1000 never populates slot index 4; and whenever the
listing loop does run an identity is present, under which every object
lacking the user prefix — legacy names included — leaves the array
untouched, so the loop's legacy branch is dead code. -/
theorem legacy_pattern_branch_dead (pub : String → String)
    (files : List String) (prev : List (Option String)) :
    (∀ i, i < 9 → (loadImagesFromSupabase none false pub files prev)[i]? = some none) ∧
    (∀ files₂ prev₂, loadImagesFromSupabase none false pub files prev
        = loadImagesFromSupabase none false pub files₂ prev₂) ∧
    (∀ uid images name, strStartsWith name ("user-" ++ uid) = false →
      processFile (some uid) pub images name = images) := by
  refine ⟨?_, ?_, ?_⟩
  · intro i hi
    rw [loadImagesFromSupabase, if_pos ⟨rfl, rfl⟩, List.getElem?_replicate, if_pos hi]
  · intro files₂ prev₂
    rw [loadImagesFromSupabase, if_pos ⟨rfl, rfl⟩, loadImagesFromSupabase, if_pos ⟨rfl, rfl⟩]
  · intro uid images name h
    simp [processFile, h]

/-- Witness for C2's divergence at the claim's own scenario: signed out
with slot-5-1000 listed, slot index 4 reads null, and with identity 42 the
same legacy name is skipped by the loop body. -/
theorem legacy_pattern_branch_dead_witness :
    (loadImagesFromSupabase none false id ["slot-5-1000"] initialImages)[4]? = some none ∧
    processFile (some "42") id initialImages "slot-5-1000" = initialImages := by
  have h := legacy_pattern_branch_dead id ["slot-5-1000"] initialImages
  exact ⟨h.1 4 (by decide), h.2.2 "42" initialImages "slot-5-1000" (by decide)⟩

/-- C3: A selected file whose MIME type does not start with image/ or whose
size exceeds 5 MiB is rejected before any network activity: the trace has
no upload, no URL resolution, no removal, no start-upload notification and
no state write — only a failure toast and a debug error entry. -/
theorem addImage_validation_failure_no_network (index : Nat) (f : JSFile)
    (images : List (Option String)) (userId : Option String) (now : Nat)
    (up : UploadOutcome) (rem : RemoveOutcome) (pub : String → String)
    (hbad : strStartsWith f.type "image/" = false ∨ f.size > 5 * 1024 * 1024) :
    (∀ nm, Event.uploadCall nm
      ∉ handleFileChange index (some f) images userId now up rem pub) ∧
    (∀ p, Event.publicUrlCall p
      ∉ handleFileChange index (some f) images userId now up rem pub) ∧
    (∀ nm, Event.removeCall nm
      ∉ handleFileChange index (some f) images userId now up rem pub) ∧
    (∀ i, Event.startUpload i
      ∉ handleFileChange index (some f) images userId now up rem pub) ∧
    (∀ imgs, Event.setImages imgs
      ∉ handleFileChange index (some f) images userId now up rem pub) ∧
    (∃ t, Event.toast t ∈ handleFileChange index (some f) images userId now up rem pub) ∧
    Event.debug "error" ∈ handleFileChange index (some f) images userId now up rem pub := by
  by_cases hty : strStartsWith f.type "image/" = true
  · have hsz : f.size > 5 * 1024 * 1024 := by
      rcases hbad with h | h
      · rw [hty] at h
        exact absurd h (by decide)
      · exact h
    have htr : handleFileChange index (some f) images userId now up rem pub
        = [.toast "File too large", .debug "error"] := by
      simp [handleFileChange, hty, hsz]
    rw [htr]
    exact ⟨fun nm => by simp, fun p => by simp, fun nm => by simp, fun i => by simp,
      fun imgs => by simp, ⟨"File too large", by simp⟩, by simp⟩
  · have hty' : strStartsWith f.type "image/" = false := by
      cases hb : strStartsWith f.type "image/"
      · rfl
      · exact absurd hb hty
    have htr : handleFileChange index (some f) images userId now up rem pub
        = [.toast "Invalid file type", .debug "error"] := by
      simp [handleFileChange, hty']
    rw [htr]
    exact ⟨fun nm => by simp, fun p => by simp, fun nm => by simp, fun i => by simp,
      fun imgs => by simp, ⟨"Invalid file type", by simp⟩, by simp⟩

/-- Witness for C3: a 10-byte text file is rejected with no upload call and
a debug error entry. -/
theorem addImage_validation_failure_no_network_witness :
    (∀ nm, Event.uploadCall nm ∉ handleFileChange 0 (some ⟨"notes.txt", "text/plain", 10⟩)
      initialImages none 5 UploadOutcome.err RemoveOutcome.ok id) ∧
    Event.debug "error" ∈ handleFileChange 0 (some ⟨"notes.txt", "text/plain", 10⟩)
      initialImages none 5 UploadOutcome.err RemoveOutcome.ok id := by
  have h := addImage_validation_failure_no_network 0 ⟨"notes.txt", "text/plain", 10⟩
    initialImages none 5 UploadOutcome.err RemoveOutcome.ok id (Or.inl (by decide))
  exact ⟨h.1, h.2.2.2.2.2.2⟩

/-- C4: An invocation that passes validation emits exactly one start-upload
notification paired with exactly one finish-upload notification for the
same slot — whatever the upload outcome — the trace ends with the finish
notification, and the finish callback removes the slot from the busy set. -/
theorem addImage_start_finish_paired (index : Nat) (f : JSFile)
    (images : List (Option String)) (userId : Option String) (now : Nat)
    (up : UploadOutcome) (rem : RemoveOutcome) (pub : String → String)
    (hty : strStartsWith f.type "image/" = true)
    (hsz : f.size ≤ 5 * 1024 * 1024) :
    ((handleFileChange index (some f) images userId now up rem pub).count
      (Event.startUpload index) = 1) ∧
    ((handleFileChange index (some f) images userId now up rem pub).count
      (Event.finishUpload index) = 1) ∧
    ((handleFileChange index (some f) images userId now up rem pub).getLast?
      = some (Event.finishUpload index)) ∧
    (∀ prev, index ∉ handleFinishImageUpload prev index) := by
  have hnot : ¬ f.size > 5 * 1024 * 1024 := by omega
  have htr : handleFileChange index (some f) images userId now up rem pub
      = .debug "info" :: handleImageChange index (some f) images userId now up rem pub := by
    simp [handleFileChange, hty, hnot]
  rw [htr]
  refine ⟨?_, ?_, ?_, ?_⟩
  · cases up with
    | ok path => rw [handleImageChange_ok_eq]; simp [List.count_cons]
    | err => rw [handleImageChange_err_eq]; simp [List.count_cons]
    | exn => rw [handleImageChange_exn_eq]; simp [List.count_cons]
  · cases up with
    | ok path => rw [handleImageChange_ok_eq]; simp [List.count_cons]
    | err => rw [handleImageChange_err_eq]; simp [List.count_cons]
    | exn => rw [handleImageChange_exn_eq]; simp [List.count_cons]
  · cases up with
    | ok path => rw [handleImageChange_ok_eq]; rfl
    | err => rw [handleImageChange_err_eq]; rfl
    | exn => rw [handleImageChange_exn_eq]; rfl
  · intro prev
    simp [handleFinishImageUpload, List.mem_filter]

/-- Witness for C4: a valid png upload that fails remotely still pairs the
start and finish notifications. -/
theorem addImage_start_finish_paired_witness :
    ((handleFileChange 2 (some ⟨"cat.png", "image/png", 1000⟩) initialImages (some "42") 7
      UploadOutcome.err RemoveOutcome.ok id).count (Event.startUpload 2) = 1) ∧
    ((handleFileChange 2 (some ⟨"cat.png", "image/png", 1000⟩) initialImages (some "42") 7
      UploadOutcome.err RemoveOutcome.ok id).count (Event.finishUpload 2) = 1) := by
  have h := addImage_start_finish_paired 2 ⟨"cat.png", "image/png", 1000⟩ initialImages
    (some "42") 7 UploadOutcome.err RemoveOutcome.ok id (by decide) (by decide)
  exact ⟨h.1, h.2.1⟩

/-- C5: When the slot holds a URL, removal sends the remove call for the
final path segment of that URL and, whatever the remote outcome, writes the
array with that slot cleared to null, writes nothing else, shows no toast,
and on remote error merely logs a debug error entry. -/
theorem removeImage_always_clears_slot (index : Nat)
    (images : List (Option String)) (userId : Option String) (now : Nat)
    (up : UploadOutcome) (rem : RemoveOutcome) (pub : String → String) (url : String)
    (h : images.getD index none = some url) :
    Event.setImages (images.set index none)
      ∈ handleImageChange index none images userId now up rem pub ∧
    (∀ imgs, Event.setImages imgs ∈ handleImageChange index none images userId now up rem pub →
      imgs = images.set index none) ∧
    (images.set index none).getD index none = none ∧
    Event.removeCall (lastSegment url)
      ∈ handleImageChange index none images userId now up rem pub ∧
    (∀ t, Event.toast t ∉ handleImageChange index none images userId now up rem pub) ∧
    (rem = RemoveOutcome.err →
      Event.debug "error" ∈ handleImageChange index none images userId now up rem pub) := by
  rw [handleImageChange_remove_some_eq index images userId now up rem pub url h]
  cases rem with
  | ok =>
    refine ⟨by simp, ?_, set_none_getD _ _, by simp, fun t => by simp, fun hc => by simp at hc⟩
    intro imgs hm
    simpa using hm
  | err =>
    refine ⟨by simp, ?_, set_none_getD _ _, by simp, fun t => by simp, fun hc => by simp⟩
    intro imgs hm
    simpa using hm
  | exn =>
    refine ⟨by simp, ?_, set_none_getD _ _, by simp, fun t => by simp, fun hc => by simp at hc⟩
    intro imgs hm
    simpa using hm

/-- Witness for C5: a slot holding a URL is cleared even though the remote
removal reports an error, and the remove call names the final path
segment. -/
theorem removeImage_always_clears_slot_witness :
    Event.setImages ((initialImages.set 1 (some "https://cdn/bucket/obj-7")).set 1 none)
      ∈ handleImageChange 1 none (initialImages.set 1 (some "https://cdn/bucket/obj-7"))
        none 3 UploadOutcome.err RemoveOutcome.err id ∧
    Event.removeCall "obj-7"
      ∈ handleImageChange 1 none (initialImages.set 1 (some "https://cdn/bucket/obj-7"))
        none 3 UploadOutcome.err RemoveOutcome.err id ∧
    Event.debug "error"
      ∈ handleImageChange 1 none (initialImages.set 1 (some "https://cdn/bucket/obj-7"))
        none 3 UploadOutcome.err RemoveOutcome.err id := by
  have h := removeImage_always_clears_slot 1
    (initialImages.set 1 (some "https://cdn/bucket/obj-7")) none 3
    UploadOutcome.err RemoveOutcome.err id "https://cdn/bucket/obj-7" (by decide)
  exact ⟨h.1, by simpa using h.2.2.2.1, h.2.2.2.2.2 rfl⟩

/-- C6: On a failed upload the invocation writes no state at all — the slot
and every other slot keep their previous values — shows the failure toast,
and still ends by clearing the busy flag. -/
theorem addImage_upload_error_slot_unchanged (index : Nat) (f : JSFile)
    (images : List (Option String)) (userId : Option String) (now : Nat)
    (up : UploadOutcome) (rem : RemoveOutcome) (pub : String → String)
    (hup : up = UploadOutcome.err ∨ up = UploadOutcome.exn) :
    (∀ imgs, Event.setImages imgs
      ∉ handleImageChange index (some f) images userId now up rem pub) ∧
    Event.toast "Upload failed" ∈ handleImageChange index (some f) images userId now up rem pub ∧
    ((handleImageChange index (some f) images userId now up rem pub).getLast?
      = some (Event.finishUpload index)) ∧
    (∀ s, Event.setText s ∉ handleImageChange index (some f) images userId now up rem pub) := by
  rcases hup with hup | hup <;> subst hup
  · rw [handleImageChange_err_eq]
    exact ⟨fun imgs => by simp, by simp, rfl, fun s => by simp⟩
  · rw [handleImageChange_exn_eq]
    exact ⟨fun imgs => by simp, by simp, rfl, fun s => by simp⟩

/-- Witness for C6: an upload that resolves with an error writes no state
and shows the failure toast. -/
theorem addImage_upload_error_slot_unchanged_witness :
    (∀ imgs, Event.setImages imgs ∉ handleImageChange 0 (some ⟨"cat.png", "image/png", 9⟩)
      initialImages (some "42") 11 UploadOutcome.err RemoveOutcome.ok id) ∧
    Event.toast "Upload failed" ∈ handleImageChange 0 (some ⟨"cat.png", "image/png", 9⟩)
      initialImages (some "42") 11 UploadOutcome.err RemoveOutcome.ok id := by
  have h := addImage_upload_error_slot_unchanged 0 ⟨"cat.png", "image/png", 9⟩
    initialImages (some "42") 11 UploadOutcome.err RemoveOutcome.ok id (Or.inl rfl)
  exact ⟨h.1, h.2.1⟩

/-- C7: The exported document has exactly the two top-level keys images and
text; its images array mirrors the in-memory array entry by entry (so nine
entries, same order); the text field survives serialization byte for byte;
and the download filename is nine-picture-grid.json. -/
theorem export_document_shape_roundtrip (images : List (Option String)) (text : String)
    (h9 : images.length = 9) :
    ∃ elems, (handleDownload images text).1
      = Json.obj [("images", Json.arr elems), ("text", Json.str text)] ∧
    elems.length = 9 ∧
    (∀ i : Nat, elems[i]? = (images[i]?).map imageJson) ∧
    parseJsonString (escapeJsonString text) = some text ∧
    (handleDownload images text).2 = "nine-picture-grid.json" := by
  refine ⟨images.map imageJson, rfl, by rw [List.length_map, h9], ?_,
    parseJsonString_escapeJsonString text, rfl⟩
  intro i
  exact List.getElem?_map imageJson images i

/-- Witness for C7 on the initial state and a text exercising quote,
backslash and newline escapes. -/
theorem export_document_shape_roundtrip_witness :
    ∃ elems, (handleDownload initialImages "a\"b\\c\nd").1
      = Json.obj [("images", Json.arr elems), ("text", Json.str "a\"b\\c\nd")] ∧
    elems.length = 9 ∧
    (∀ i : Nat, elems[i]? = (initialImages[i]?).map imageJson) ∧
    parseJsonString (escapeJsonString "a\"b\\c\nd") = some "a\"b\\c\nd" ∧
    (handleDownload initialImages "a\"b\\c\nd").2 = "nine-picture-grid.json" :=
  export_document_shape_roundtrip initialImages "a\"b\\c\nd" (by decide)

/-- C8: When several listed objects map to the same slot, the one the loop
processes last — the later one in the order the store returned — wins. -/
theorem reconcile_collision_last_wins (userId : Option String) (pub : String → String)
    (pre mid post : List String) (a b : String) (i : Nat)
    (_ha : eligibleSlot userId a = some i)
    (hb : eligibleSlot userId b = some i)
    (hp : ∀ m ∈ post, eligibleSlot userId m ≠ some i) :
    (reconcileImages userId pub (pre ++ a :: (mid ++ b :: post)))[i]?
      = some (some (pub b)) := by
  have hsh : pre ++ a :: (mid ++ b :: post) = (pre ++ a :: mid) ++ b :: post := by
    simp [List.append_assoc]
  rw [hsh]
  exact reconcile_last_eligible userId pub (pre ++ a :: mid) post b i hb hp

/-- Witness for C8: two objects for slot 2; the later listing entry
provides the slot URL. -/
theorem reconcile_collision_last_wins_witness :
    (reconcileImages (some "7") id ["user-7-slot-2-a", "user-7-slot-2-b"])[1]?
      = some (some "user-7-slot-2-b") := by
  have h := reconcile_collision_last_wins (some "7") id [] [] []
    "user-7-slot-2-a" "user-7-slot-2-b" 1 (by decide) (by decide) (by decide)
  simpa using h

/-- C9: There are exactly nine slots at all times: the initial array has
nine entries, image loading preserves nine entries, and every array a
grid mutation writes has as many entries as the array it started from. -/
theorem nine_slots_invariant :
    initialImages.length = 9 ∧
    (∀ user isAuthLoading pub files prev, prev.length = 9 →
      (loadImagesFromSupabase user isAuthLoading pub files prev).length = 9) ∧
    (∀ index file images userId now up rem pub imgs, images.length = 9 →
      Event.setImages imgs ∈ handleImageChange index file images userId now up rem pub →
      imgs.length = 9) := by
  refine ⟨rfl, ?_, ?_⟩
  · intro user isAuthLoading pub files prev hprev
    rw [loadImagesFromSupabase]
    split
    · exact List.length_replicate 9 none
    · split
      · exact hprev
      · split
        · exact reconcile_length _ _ _
        · exact hprev
  · intro index file images userId now up rem pub imgs h9 hm
    obtain ⟨v, rfl⟩ :=
      setImages_payload_is_set index file images userId now up rem pub imgs hm
    rw [List.length_set]
    exact h9

/-- Witness for C9: a signed-in load over an empty listing keeps nine
entries. -/
theorem nine_slots_invariant_witness :
    (loadImagesFromSupabase (some "42") false id [] initialImages).length = 9 :=
  nine_slots_invariant.2.1 (some "42") false id [] initialImages (by decide)

/-- C10: A successful upload writes exactly one array, equal to the
starting array with only the addressed slot replaced by the resolved URL;
all other positions read unchanged, and the text state is never written. -/
theorem addImage_success_frame (index : Nat) (f : JSFile)
    (images : List (Option String)) (userId : Option String) (now : Nat)
    (path : String) (rem : RemoveOutcome) (pub : String → String) :
    Event.setImages (images.set index (some (pub path)))
      ∈ handleImageChange index (some f) images userId now (UploadOutcome.ok path) rem pub ∧
    (∀ imgs, Event.setImages imgs
        ∈ handleImageChange index (some f) images userId now (UploadOutcome.ok path) rem pub →
      imgs = images.set index (some (pub path))) ∧
    (∀ j, j ≠ index → (images.set index (some (pub path)))[j]? = images[j]?) ∧
    (∀ s, Event.setText s
      ∉ handleImageChange index (some f) images userId now (UploadOutcome.ok path) rem pub) := by
  rw [handleImageChange_ok_eq]
  refine ⟨by simp, ?_, ?_, fun s => by simp⟩
  · intro imgs hm
    simpa using hm
  · intro j hj
    exact List.getElem?_set_ne (Ne.symm hj)

/-- Witness for C10: a successful upload into slot 3 leaves slot 0
untouched and writes exactly the expected array. -/
theorem addImage_success_frame_witness :
    Event.setImages (initialImages.set 3 (some "p"))
      ∈ handleImageChange 3 (some ⟨"cat.png", "image/png", 12⟩) initialImages none 99
        (UploadOutcome.ok "p") RemoveOutcome.ok id ∧
    (initialImages.set 3 (some "p"))[0]? = initialImages[0]? := by
  have h := addImage_success_frame 3 ⟨"cat.png", "image/png", 12⟩ initialImages none 99 "p"
    RemoveOutcome.ok id
  exact ⟨h.1, h.2.2.1 0 (by decide)⟩

end NineGrid
